import Mathlib

/-!
Portfolio front-end script: theme toggle, chat widget and mock message dispatcher.

A shallow embedding of `src/frontend/script.js`.  The page is a record holding the
parts of the DOM the script reads and writes: four class lists, the value of the
input field, the children of `#chat-body` and the callbacks handed to `setTimeout`
that have not run yet.  Every handler of the script is a function on that record.

Conventions of the embedding:

* a `classList` is the list of its tokens; `contains`, `add`, `remove` and `toggle`
  follow the DOM token-list operations;
* `Date.now()` is an argument of every function that calls it;
* `document.getElementById` is looked up among the children of `#chat-body`, in
  document order (the ids the static markup uses, `theme-toggle`, `chat-widget`,
  `toggle-icon`, `user-input`, `chat-body`, never have the form `msg-<number>`);
* a JavaScript string is a Lean `String`; `String.prototype.trim` strips the
  ECMAScript `WhiteSpace` and `LineTerminator` code points;
* the scroll position written by `addMessage` is layout and is not part of the record.
-/

namespace Portfolio

/-! ## DOM token lists -/

/-- The method `classList.contains(token)`. -/
def classContains (cl : List String) (token : String) : Bool :=
  cl.contains token

/-- The method `classList.add(token)`: the token is appended unless it is present. -/
def classAdd (cl : List String) (token : String) : List String :=
  if classContains cl token then cl else cl ++ [token]

/-- The method `classList.remove(token)`. -/
def classRemove (cl : List String) (token : String) : List String :=
  cl.filter (fun t => t != token)

/-- The method `classList.toggle(token)`: removes the token when present, adds it otherwise. -/
def classToggle (cl : List String) (token : String) : List String :=
  if classContains cl token then classRemove cl token else classAdd cl token

/-! ## The page -/

/-- A child of `#chat-body`: the `div` built by `addMessage`. -/
structure Message where
  classList : List String
  innerText : String
  id : Option String
deriving DecidableEq, Repr

/-- The part of the document the script works on. -/
structure Page where
  /-- the class list of `document.body` -/
  bodyClasses : List String
  /-- the class list of the `i` element inside `#theme-toggle` -/
  iconClasses : List String
  /-- the class list of `#chat-widget` -/
  widgetClasses : List String
  /-- the class list of `#toggle-icon` -/
  toggleIconClasses : List String
  /-- the value of `#user-input` -/
  userInput : String
  /-- the children of `#chat-body`, in document order -/
  chatBody : List Message
  /-- the `loadingId` captured by each `setTimeout` callback that has not run yet,
  in the order the callbacks were scheduled -/
  timers : List String
deriving DecidableEq, Repr

/-! ## Theme toggle (script.js, lines 6-15) -/

/-- The click handler of `#theme-toggle`. -/
def themeToggleClick (p : Page) : Page :=
  let p1 := { p with bodyClasses := classToggle p.bodyClasses "dark-mode" }
  if classContains p1.bodyClasses "dark-mode" then
    let p2 := { p1 with iconClasses := classRemove p1.iconClasses "fa-moon" }
    { p2 with iconClasses := classAdd p2.iconClasses "fa-sun" }
  else
    let p2 := { p1 with iconClasses := classRemove p1.iconClasses "fa-sun" }
    { p2 with iconClasses := classAdd p2.iconClasses "fa-moon" }

/-! ## Chat widget (script.js, lines 20-41) -/

/-- The function `toggleChat()`. -/
def toggleChat (p : Page) : Page :=
  let p1 := { p with widgetClasses := classToggle p.widgetClasses "closed" }
  if classContains p1.widgetClasses "closed" then
    let p2 := { p1 with toggleIconClasses := classRemove p1.toggleIconClasses "fa-chevron-down" }
    { p2 with toggleIconClasses := classAdd p2.toggleIconClasses "fa-chevron-up" }
  else
    let p2 := { p1 with toggleIconClasses := classRemove p1.toggleIconClasses "fa-chevron-up" }
    { p2 with toggleIconClasses := classAdd p2.toggleIconClasses "fa-chevron-down" }

/-- The function `openChat()`. -/
def openChat (p : Page) : Page :=
  if classContains p.widgetClasses "closed" then toggleChat p else p

/-! ## Message dispatcher (script.js, lines 44-95) -/

/-- The code points `String.prototype.trim` strips: ECMAScript `WhiteSpace`
(TAB, VT, FF, ZWNBSP and the Unicode space separators) and `LineTerminator`
(LF, CR, LS, PS). -/
def isJSWhiteSpace (c : Char) : Bool :=
  let n := c.toNat
  n == 0x09 || n == 0x0A || n == 0x0B || n == 0x0C || n == 0x0D || n == 0x20 ||
  n == 0xA0 || n == 0x1680 || (0x2000 ≤ n && n ≤ 0x200A) || n == 0x2028 ||
  n == 0x2029 || n == 0x202F || n == 0x205F || n == 0x3000 || n == 0xFEFF

/-- The method `String.prototype.trim` on a list of code points. -/
def trimChars (cs : List Char) : List Char :=
  ((cs.dropWhile isJSWhiteSpace).reverse.dropWhile isJSWhiteSpace).reverse

/-- The method `String.prototype.trim`. -/
def jsTrim (s : String) : String :=
  String.mk (trimChars s.data)

/-- The literal handed to `addMessage` for the placeholder (line 55). -/
def loadingText : String := "Yanıt hazırlanıyor..."

/-- The constant `mockResponse` (line 65). -/
def mockResponse : String :=
  "Şu anda Python arka yüzüme bağlı değilim, bu yüzden sadece görsel bir demoyum. Yakında RAG ve Gemini API ile gerçek cevaplar vereceğim!"

/-- The function `addMessage(text, className, isLoading)`; `now` is the value of
`Date.now()`.  Returns the page and `uniqueId`. -/
def addMessage (p : Page) (text className : String) (isLoading : Bool) (now : Int) :
    Page × String :=
  let messageDiv : Message :=
    { classList := classAdd (classAdd [] "message") className, innerText := text, id := none }
  let uniqueId := "msg-" ++ toString now
  let messageDiv := if isLoading then { messageDiv with id := some uniqueId } else messageDiv
  ({ p with chatBody := p.chatBody ++ [messageDiv] }, uniqueId)

/-- The call `document.getElementById(id)`: the position of the first child of
`#chat-body` carrying that id, or `none` (JavaScript `null`).  The ids looked up are
the non-empty strings `msg-<n>` built by `addMessage`. -/
def getElementById : List Message → String → Option Nat
  | [], _ => none
  | m :: rest, id =>
    if m.id = some id then some 0 else (getElementById rest id).map (fun i => i + 1)

/-- The method `element.remove()` on the child at position `i`. -/
def removeElement (l : List Message) (i : Nat) : List Message :=
  l.eraseIdx i

/-- The call `setTimeout(callback, 1500)`: the callback, identified by the
`loadingId` it captured, joins the scheduled callbacks. -/
def setTimeout (p : Page) (loadingId : String) : Page :=
  { p with timers := p.timers ++ [loadingId] }

/-- The body of the arrow function handed to `setTimeout` (lines 59-68); `now` is the
value of `Date.now()` inside its call of `addMessage`. -/
def timeoutCallback (p : Page) (loadingId : String) (now : Int) : Page :=
  let p1 := match getElementById p.chatBody loadingId with
    | some loadingMsg => { p with chatBody := removeElement p.chatBody loadingMsg }
    | none => p
  (addMessage p1 mockResponse "bot-message" false now).1

/-- The function `sendMessage()`; `now₁` and `now₂` are the values of `Date.now()`
in its two calls of `addMessage`. -/
def sendMessage (p : Page) (now₁ now₂ : Int) : Page :=
  let message := jsTrim p.userInput
  if message = "" then p
  else
    let p1 := (addMessage p message "user-message" false now₁).1
    let p2 := { p1 with userInput := "" }
    let r := addMessage p2 loadingText "bot-message" true now₂
    setTimeout r.1 r.2

/-- The function `handleKeyPress(event)`; `key` is `event.key`. -/
def handleKeyPress (p : Page) (key : String) (now₁ now₂ : Int) : Page :=
  if key = "Enter" then sendMessage p now₁ now₂ else p

/-- The timer at position `i` of the scheduled callbacks fires: it leaves the
scheduled callbacks and its body runs.  A position past the end fires nothing.
Every callback is scheduled with the same delay of 1500 ms (line 68), so the runtime
runs them in scheduling order: the position that fires in a browser is 0.  The other
positions make the runs of the embedding a superset of the browser's. -/
def fireTimer (p : Page) (i : Nat) (now : Int) : Page :=
  match p.timers.get? i with
  | some loadingId => timeoutCallback { p with timers := p.timers.eraseIdx i } loadingId now
  | none => p

/-! ## Vocabulary of the properties -/

/-- The user message `addMessage(t, 'user-message')` appends. -/
def userMessage (t : String) : Message :=
  { classList := ["message", "user-message"], innerText := t, id := none }

/-- The placeholder `addMessage("Yanıt hazırlanıyor...", 'bot-message', true)` appends. -/
def pendingMessage (loadingId : String) : Message :=
  { classList := ["message", "bot-message"], innerText := loadingText, id := some loadingId }

/-- The resolved bot message `addMessage(mockResponse, 'bot-message')` appends. -/
def botMessage : Message :=
  { classList := ["message", "bot-message"], innerText := mockResponse, id := none }

/-- The id `addMessage` builds at clock value `now`. -/
def msgId (now : Int) : String := "msg-" ++ toString now

/-- The number of children of `#chat-body` carrying the id `id`. -/
def pendingCount (l : List Message) (id : String) : Nat :=
  l.countP (fun m => decide (m.id = some id))


/-! ## Runs of the dispatcher -/

/-- The user edits `#user-input`: its value becomes `v`. -/
def typeInput (p : Page) (v : String) : Page :=
  { p with userInput := v }

/-- What happens to the dispatcher: `sendMessage()` is called while the input field
holds `v`, or the scheduled callback at position `i` fires. -/
inductive Event where
  | send (v : String) (now₁ now₂ : Int)
  | fire (i : Nat) (now : Int)
deriving DecidableEq, Repr

/-- One event applied to the page. -/
def step (p : Page) : Event → Page
  | .send v now₁ now₂ => sendMessage (typeInput p v) now₁ now₂
  | .fire i now => fireTimer p i now

/-- A sequence of events applied to the page, first event first. -/
def run (p : Page) (es : List Event) : Page :=
  es.foldl step p

/-- The sends of a sequence that pass the `message === ""` check of `sendMessage`. -/
def acceptedSends (es : List Event) : Nat :=
  es.countP (fun e => match e with
    | .send v _ _ => jsTrim v != ""
    | .fire _ _ => false)

/-- A page as it is conventionally loaded: light theme with the moon glyph, widget
closed with the chevron up, empty input, empty chat, nothing scheduled. -/
def loadedPage : Page :=
  { bodyClasses := [], iconClasses := ["fas", "fa-moon"], widgetClasses := ["closed"],
    toggleIconClasses := ["fas", "fa-chevron-up"], userInput := "", chatBody := [],
    timers := [] }

/-- The loaded page after the widget has been opened. -/
def openPage : Page :=
  { loadedPage with widgetClasses := [], toggleIconClasses := ["fas", "fa-chevron-down"] }

/-- A light page whose markup shows the sun glyph. -/
def sunInLightPage : Page :=
  { loadedPage with iconClasses := ["fas", "fa-sun"] }

/-- The loaded page with `  Hello ` typed into the input field. -/
def helloPage : Page :=
  typeInput loadedPage "  Hello "

/-- The loaded page with blanks, a tab and a line feed typed into the input field. -/
def blankPage : Page :=
  typeInput loadedPage "  \t\n "

/-- Two sends in the same clock tick, then the callback of the first send fires. -/
def sameTickEvents : List Event :=
  [.send "a" 5 5, .send "b" 5 5, .fire 0 9]

/-- Two sends in the same clock tick, then both callbacks fire. -/
def sameTickDrained : List Event :=
  [.send "a" 5 5, .send "b" 5 5, .fire 0 9, .fire 0 10]

/-- The ids carried by the children of `#chat-body`, in document order. -/
def placeholderIds (l : List Message) : List String :=
  l.filterMap (fun m => m.id)

/-- A sequence of events in which every firing is that of the callback scheduled
first, the order in which the runtime runs callbacks of equal delay. -/
def schedulingOrder (es : List Event) : Bool :=
  es.all (fun e => match e with
    | .send _ _ _ => true
    | .fire i _ => i == 0)

/-! ## Token-list lemmas -/

theorem classContains_iff (cl : List String) (t : String) :
    classContains cl t = true ↔ t ∈ cl := by
  simp [classContains]

theorem classContains_false_iff (cl : List String) (t : String) :
    classContains cl t = false ↔ t ∉ cl := by
  rw [← classContains_iff]; simp

theorem mem_classAdd (cl : List String) (t u : String) :
    u ∈ classAdd cl t ↔ u ∈ cl ∨ u = t := by
  unfold classAdd
  split
  · rename_i h
    rw [classContains_iff] at h
    constructor
    · exact Or.inl
    · rintro (h1 | rfl)
      · exact h1
      · exact h
  · simp

theorem mem_classRemove (cl : List String) (t u : String) :
    u ∈ classRemove cl t ↔ u ∈ cl ∧ u ≠ t := by
  simp [classRemove]

theorem mem_classToggle (cl : List String) (t u : String) :
    u ∈ classToggle cl t ↔ (u ∈ cl ∧ u ≠ t) ∨ (u = t ∧ t ∉ cl) := by
  unfold classToggle
  split
  · rename_i h
    rw [classContains_iff] at h
    rw [mem_classRemove]
    constructor
    · exact Or.inl
    · rintro (h1 | ⟨_, h2⟩)
      · exact h1
      · exact absurd h h2
  · rename_i h
    have h' : t ∉ cl := by rw [← classContains_iff]; exact h
    rw [mem_classAdd]
    constructor
    · rintro (h1 | rfl)
      · exact Or.inl ⟨h1, fun e => h' (e ▸ h1)⟩
      · exact Or.inr ⟨rfl, h'⟩
    · rintro (⟨h1, _⟩ | ⟨h1, _⟩)
      · exact Or.inl h1
      · exact Or.inr h1

theorem classContains_toggle_self (cl : List String) (t : String) :
    classContains (classToggle cl t) t = !classContains cl t := by
  cases h : classContains cl t
  · have h' : t ∉ cl := (classContains_false_iff cl t).1 h
    simp only [Bool.not_false]
    rw [classContains_iff, mem_classToggle]
    exact Or.inr ⟨rfl, h'⟩
  · simp only [Bool.not_true]
    rw [classContains_false_iff, mem_classToggle]
    rintro (⟨_, h2⟩ | ⟨_, h2⟩)
    · exact h2 rfl
    · exact h2 ((classContains_iff cl t).1 h)

theorem classContains_add_self (cl : List String) (t : String) :
    classContains (classAdd cl t) t = true := by
  rw [classContains_iff, mem_classAdd]; exact Or.inr rfl

theorem classContains_remove_self (cl : List String) (t : String) :
    classContains (classRemove cl t) t = false := by
  rw [classContains_false_iff, mem_classRemove]; exact fun h => h.2 rfl

theorem classContains_add_remove (cl : List String) (t u : String) (h : u ≠ t) :
    classContains (classAdd (classRemove cl u) t) u = false := by
  rw [classContains_false_iff, mem_classAdd, mem_classRemove]
  rintro (⟨_, h2⟩ | h2)
  · exact h2 rfl
  · exact h h2


/-! ## Theme toggle and chat widget -/

theorem themeToggleClick_body (p : Page) :
    (themeToggleClick p).bodyClasses = classToggle p.bodyClasses "dark-mode" := by
  unfold themeToggleClick
  dsimp only
  split <;> rfl

theorem themeToggleClick_icon (p : Page) :
    (themeToggleClick p).iconClasses =
      if classContains p.bodyClasses "dark-mode" then
        classAdd (classRemove p.iconClasses "fa-sun") "fa-moon"
      else classAdd (classRemove p.iconClasses "fa-moon") "fa-sun" := by
  unfold themeToggleClick
  dsimp only
  rw [classContains_toggle_self]
  cases classContains p.bodyClasses "dark-mode" <;> rfl

theorem toggleChat_widget (p : Page) :
    (toggleChat p).widgetClasses = classToggle p.widgetClasses "closed" := by
  unfold toggleChat
  dsimp only
  split <;> rfl

theorem toggleChat_toggleIcon (p : Page) :
    (toggleChat p).toggleIconClasses =
      if classContains p.widgetClasses "closed" then
        classAdd (classRemove p.toggleIconClasses "fa-chevron-up") "fa-chevron-down"
      else classAdd (classRemove p.toggleIconClasses "fa-chevron-down") "fa-chevron-up" := by
  unfold toggleChat
  dsimp only
  rw [classContains_toggle_self]
  cases classContains p.widgetClasses "closed" <;> rfl

theorem mem_classToggle_twice (cl : List String) (t u : String) :
    u ∈ classToggle (classToggle cl t) t ↔ u ∈ cl := by
  rw [mem_classToggle, mem_classToggle, mem_classToggle]
  by_cases hu : u = t
  · subst hu
    by_cases hm : u ∈ cl <;> simp [hm]
  · simp [hu]

/-! ## Message dispatcher: the pieces -/

theorem trimChars_of_all_white (cs : List Char) (h : ∀ c ∈ cs, isJSWhiteSpace c = true) :
    trimChars cs = [] := by
  unfold trimChars
  rw [List.dropWhile_eq_nil_iff.2 h]
  rfl

theorem jsTrim_of_all_white (s : String) (h : ∀ c ∈ s.data, isJSWhiteSpace c = true) :
    jsTrim s = "" := by
  unfold jsTrim
  rw [trimChars_of_all_white _ h]

theorem addMessage_plain (p : Page) (text className : String) (now : Int) :
    (addMessage p text className false now).1 =
      { p with chatBody := p.chatBody ++
          [{ classList := classAdd (classAdd [] "message") className,
             innerText := text, id := none }] } := by
  rfl

theorem sendMessage_of_nonempty (p : Page) (now₁ now₂ : Int) (h : jsTrim p.userInput ≠ "") :
    sendMessage p now₁ now₂ =
      { p with
        chatBody := p.chatBody ++
          [userMessage (jsTrim p.userInput), pendingMessage (msgId now₂)]
        userInput := ""
        timers := p.timers ++ [msgId now₂] } := by
  unfold sendMessage
  simp only [h, if_false]
  simp [addMessage, setTimeout, userMessage, pendingMessage, msgId]
  constructor <;> rfl

theorem sendMessage_of_empty (p : Page) (now₁ now₂ : Int) (h : jsTrim p.userInput = "") :
    sendMessage p now₁ now₂ = p := by
  unfold sendMessage
  simp only [h, if_true]

theorem resolve_eq_eraseP (l : List Message) (id : String) :
    (match getElementById l id with
      | some loadingMsg => removeElement l loadingMsg
      | none => l) = l.eraseP (fun m => decide (m.id = some id)) := by
  induction l with
  | nil => rfl
  | cons m rest ih =>
    unfold getElementById
    by_cases h : m.id = some id
    · simp [h, removeElement]
    · simp only [h, if_false]
      rw [List.eraseP_cons_of_neg (by simpa using h), ← ih]
      cases getElementById rest id <;> simp [removeElement]

theorem timeoutCallback_eq (p : Page) (loadingId : String) (now : Int) :
    timeoutCallback p loadingId now =
      { p with chatBody :=
          p.chatBody.eraseP (fun m => decide (m.id = some loadingId)) ++ [botMessage] } := by
  unfold timeoutCallback
  rw [← resolve_eq_eraseP]
  cases getElementById p.chatBody loadingId <;> rfl

/-! ## Counting placeholders and scheduled callbacks -/

theorem pendingCount_append (l₁ l₂ : List Message) (id : String) :
    pendingCount (l₁ ++ l₂) id = pendingCount l₁ id + pendingCount l₂ id := by
  unfold pendingCount
  exact List.countP_append _ l₁ l₂

theorem pendingCount_eraseP (l : List Message) (i j : String) :
    pendingCount (l.eraseP (fun m => decide (m.id = some i))) j =
      pendingCount l j - (if j = i then 1 else 0) := by
  unfold pendingCount
  induction l with
  | nil => simp
  | cons m rest ih =>
    by_cases h : m.id = some i
    · rw [List.eraseP_cons_of_pos (by simpa using h), List.countP_cons]
      by_cases hj : j = i
      · subst hj
        simp [h]
      · have : ¬ m.id = some j := by
          rw [h]; intro e; exact hj (Option.some.inj e).symm
        simp [hj, this]
    · rw [List.eraseP_cons_of_neg (by simpa using h), List.countP_cons, List.countP_cons, ih]
      by_cases hj : j = i
      · subst hj
        simp [h]
      · simp [hj]

theorem count_eraseIdx (l : List String) (i : Nat) (id j : String)
    (h : l.get? i = some id) :
    (l.eraseIdx i).count j + (if j = id then 1 else 0) = l.count j := by
  induction l generalizing i with
  | nil => simp at h
  | cons a rest ih =>
    cases i with
    | zero =>
      simp at h
      subst h
      by_cases hj : j = a
      · subst hj; simp
      · have : ¬ a = j := fun e => hj e.symm
        simp [hj, List.count_cons, this]
    | succ k =>
      simp at h
      have ih' := ih k (by simpa using h)
      simp only [List.eraseIdx_cons_succ, List.count_cons]
      omega

theorem length_eraseIdx_of_get (l : List String) (i : Nat) (id : String)
    (h : l.get? i = some id) : (l.eraseIdx i).length + 1 = l.length := by
  have hlt : i < l.length := by
    rcases Nat.lt_or_ge i l.length with h1 | h1
    · exact h1
    · rw [List.get?_eq_none.2 h1] at h; cases h
  rw [List.length_eraseIdx]
  simp [hlt]
  omega

theorem count_bot_eraseP (l : List Message) (id : String) :
    (l.eraseP (fun m => decide (m.id = some id))).count botMessage = l.count botMessage := by
  induction l with
  | nil => rfl
  | cons m rest ih =>
    by_cases h : m.id = some id
    · rw [List.eraseP_cons_of_pos (by simpa using h)]
      have hne : ¬ m = botMessage := by
        intro e; rw [e] at h; cases h
      rw [List.count_cons_of_ne (fun e => hne e.symm)]
    · rw [List.eraseP_cons_of_neg (by simpa using h), List.count_cons, List.count_cons, ih]

theorem fireTimer_of_get (p : Page) (i : Nat) (now : Int) (loadingId : String)
    (h : p.timers.get? i = some loadingId) :
    fireTimer p i now =
      { p with
        chatBody :=
          p.chatBody.eraseP (fun m => decide (m.id = some loadingId)) ++ [botMessage]
        timers := p.timers.eraseIdx i } := by
  unfold fireTimer
  rw [h]
  exact timeoutCallback_eq _ _ _

theorem fireTimer_of_none (p : Page) (i : Nat) (now : Int) (h : p.timers.get? i = none) :
    fireTimer p i now = p := by
  unfold fireTimer
  rw [h]

/-- The balance between placeholders and scheduled callbacks. -/
theorem balanced_sendMessage (p : Page) (now₁ now₂ : Int)
    (h : ∀ id, pendingCount p.chatBody id = p.timers.count id) (id : String) :
    pendingCount (sendMessage p now₁ now₂).chatBody id =
      (sendMessage p now₁ now₂).timers.count id := by
  by_cases he : jsTrim p.userInput = ""
  · rw [sendMessage_of_empty p now₁ now₂ he]; exact h id
  · rw [sendMessage_of_nonempty p now₁ now₂ he]
    simp only [pendingCount_append, List.count_append, h id]
    by_cases hid : msgId now₂ = id
    · simp [pendingCount, userMessage, pendingMessage, hid]
    · simp [pendingCount, userMessage, pendingMessage, hid, List.count_cons]

theorem balanced_fireTimer (p : Page) (i : Nat) (now : Int)
    (h : ∀ id, pendingCount p.chatBody id = p.timers.count id) (id : String) :
    pendingCount (fireTimer p i now).chatBody id = (fireTimer p i now).timers.count id := by
  cases hg : p.timers.get? i with
  | none => rw [fireTimer_of_none p i now hg]; exact h id
  | some loadingId =>
    rw [fireTimer_of_get p i now loadingId hg]
    have hc := count_eraseIdx p.timers i loadingId id hg
    simp only [pendingCount_append, pendingCount_eraseP, h id]
    have hb : pendingCount [botMessage] id = 0 := by
      simp [pendingCount, botMessage]
    rw [hb]
    omega

theorem balanced_step (p : Page) (e : Event)
    (h : ∀ id, pendingCount p.chatBody id = p.timers.count id) (id : String) :
    pendingCount (step p e).chatBody id = (step p e).timers.count id := by
  cases e with
  | send v now₁ now₂ => exact balanced_sendMessage (typeInput p v) now₁ now₂ h id
  | fire i now => exact balanced_fireTimer p i now h id

theorem balanced_run (es : List Event) (p : Page)
    (h : ∀ id, pendingCount p.chatBody id = p.timers.count id) (id : String) :
    pendingCount (run p es).chatBody id = (run p es).timers.count id := by
  induction es generalizing p with
  | nil => exact h id
  | cons e rest ih => exact ih (step p e) (balanced_step p e h)

/-- Every callback, fired or still scheduled, accounts for one accepted send. -/
theorem responses_step (p : Page) (e : Event) :
    (step p e).chatBody.count botMessage + (step p e).timers.length =
      p.chatBody.count botMessage + p.timers.length + acceptedSends [e] := by
  cases e with
  | send v now₁ now₂ =>
    by_cases he : jsTrim v = ""
    · have : step p (.send v now₁ now₂) = typeInput p v :=
        sendMessage_of_empty (typeInput p v) now₁ now₂ he
      rw [this]
      simp [acceptedSends, he, typeInput]
    · have : step p (.send v now₁ now₂) = _ :=
        sendMessage_of_nonempty (typeInput p v) now₁ now₂ he
      rw [this]
      have h1 : ¬ userMessage (jsTrim v) = botMessage := by
        intro e
        have hc : ["message", "user-message"] = ["message", "bot-message"] :=
          congrArg Message.classList e
        revert hc; decide
      have h2 : ¬ pendingMessage (msgId now₂) = botMessage := by
        intro e; have := congrArg Message.id e; cases this
      simp [acceptedSends, he, typeInput, List.count_cons, h1, h2]
      omega
  | fire i now =>
    cases hg : p.timers.get? i with
    | none =>
      have : step p (.fire i now) = p := fireTimer_of_none p i now hg
      rw [this]; simp [acceptedSends]
    | some loadingId =>
      have : step p (.fire i now) = _ := fireTimer_of_get p i now loadingId hg
      rw [this]
      have hl := length_eraseIdx_of_get p.timers i loadingId hg
      simp only [List.count_append, count_bot_eraseP]
      simp [acceptedSends]
      omega

theorem acceptedSends_cons (e : Event) (es : List Event) :
    acceptedSends (e :: es) = acceptedSends [e] + acceptedSends es := by
  unfold acceptedSends
  rw [List.countP_cons, List.countP_cons]
  simp
  omega

theorem responses_run (es : List Event) (p : Page) :
    (run p es).chatBody.count botMessage + (run p es).timers.length =
      p.chatBody.count botMessage + p.timers.length + acceptedSends es := by
  induction es generalizing p with
  | nil => simp [run, acceptedSends]
  | cons e rest ih =>
    have h1 := ih (step p e)
    have h2 := responses_step p e
    rw [acceptedSends_cons]
    have : run p (e :: rest) = run (step p e) rest := rfl
    rw [this]
    omega

theorem no_id_of_pendingCount_zero (l : List Message)
    (h : ∀ id, pendingCount l id = 0) : ∀ m ∈ l, m.id = none := by
  intro m hm
  cases hid : m.id with
  | none => rfl
  | some id =>
    have h0 := h id
    unfold pendingCount at h0
    rw [List.countP_eq_zero] at h0
    have := h0 m hm
    simp [hid] at this

theorem themeToggleClick_rest (p : Page) :
    (themeToggleClick p).widgetClasses = p.widgetClasses ∧
    (themeToggleClick p).toggleIconClasses = p.toggleIconClasses ∧
    (themeToggleClick p).userInput = p.userInput ∧
    (themeToggleClick p).chatBody = p.chatBody ∧
    (themeToggleClick p).timers = p.timers := by
  unfold themeToggleClick
  dsimp only
  split <;> exact ⟨rfl, rfl, rfl, rfl, rfl⟩

theorem themeToggleClick_flag (p : Page) :
    classContains (themeToggleClick p).bodyClasses "dark-mode" =
      !classContains p.bodyClasses "dark-mode" := by
  rw [themeToggleClick_body, classContains_toggle_self]

theorem themeToggleClick_glyph (p : Page) :
    classContains (themeToggleClick p).iconClasses "fa-sun" =
        classContains (themeToggleClick p).bodyClasses "dark-mode" ∧
    classContains (themeToggleClick p).iconClasses "fa-moon" =
        !classContains (themeToggleClick p).bodyClasses "dark-mode" := by
  rw [themeToggleClick_flag, themeToggleClick_icon]
  cases classContains p.bodyClasses "dark-mode"
  · exact ⟨classContains_add_self _ _, classContains_add_remove _ _ _ (by decide)⟩
  · exact ⟨classContains_add_remove _ _ _ (by decide), classContains_add_self _ _⟩

theorem toggleChat_flag (p : Page) :
    classContains (toggleChat p).widgetClasses "closed" =
      !classContains p.widgetClasses "closed" := by
  rw [toggleChat_widget, classContains_toggle_self]

theorem toggleChat_glyph (p : Page) :
    classContains (toggleChat p).toggleIconClasses "fa-chevron-up" =
        classContains (toggleChat p).widgetClasses "closed" ∧
    classContains (toggleChat p).toggleIconClasses "fa-chevron-down" =
        !classContains (toggleChat p).widgetClasses "closed" := by
  rw [toggleChat_flag, toggleChat_toggleIcon]
  cases classContains p.widgetClasses "closed"
  · exact ⟨classContains_add_self _ _, classContains_add_remove _ _ _ (by decide)⟩
  · exact ⟨classContains_add_remove _ _ _ (by decide), classContains_add_self _ _⟩

theorem mem_icon_two_clicks (p : Page) (t : String)
    (hsun : classContains p.iconClasses "fa-sun" = classContains p.bodyClasses "dark-mode")
    (hmoon : classContains p.iconClasses "fa-moon" =
      !classContains p.bodyClasses "dark-mode") :
    t ∈ (themeToggleClick (themeToggleClick p)).iconClasses ↔ t ∈ p.iconClasses := by
  rw [themeToggleClick_icon, themeToggleClick_flag, themeToggleClick_icon]
  cases hd : classContains p.bodyClasses "dark-mode"
  · rw [hd] at hsun hmoon
    have h1 : "fa-sun" ∉ p.iconClasses := (classContains_false_iff _ _).1 hsun
    have h2 : "fa-moon" ∈ p.iconClasses := (classContains_iff _ _).1 hmoon
    simp only [Bool.not_false, if_true, Bool.false_eq_true, if_false, mem_classAdd,
      mem_classRemove]
    by_cases e1 : t = "fa-moon"
    · subst e1; simp [h2]
    · by_cases e2 : t = "fa-sun"
      · subst e2; simp [h1]
      · simp [e1, e2]
  · rw [hd] at hsun hmoon
    have h1 : "fa-sun" ∈ p.iconClasses := (classContains_iff _ _).1 hsun
    have h2 : "fa-moon" ∉ p.iconClasses := (classContains_false_iff _ _).1 hmoon
    simp only [Bool.not_true, if_true, Bool.false_eq_true, if_false, mem_classAdd,
      mem_classRemove]
    by_cases e1 : t = "fa-moon"
    · subst e1; simp [h2]
    · by_cases e2 : t = "fa-sun"
      · subst e2; simp [h1]
      · simp [e1, e2]

/-- On a page with balanced placeholders and nothing scheduled, no element of the chat
carries an id: the id a new send generates is fresh there. -/
theorem fresh_of_quiet (p : Page)
    (hbal : ∀ id, pendingCount p.chatBody id = p.timers.count id) (hq : p.timers = [])
    (id : String) : ∀ m ∈ p.chatBody, m.id ≠ some id := by
  intro m hm e
  have h0 := no_id_of_pendingCount_zero p.chatBody
    (fun j => by rw [hbal j, hq]; rfl) m hm
  rw [h0] at e
  cases e

/-! ## Sends on a chat that does not hold the new id -/

theorem run_append (p : Page) (es fs : List Event) :
    run p (es ++ fs) = run (run p es) fs := by
  unfold run
  exact List.foldl_append _ _ _ _

/-- A send whose id no element of the chat carries, followed by its callback. -/
theorem send_then_fire_of_fresh (p : Page) (now₁ now₂ now₃ : Int)
    (h : jsTrim p.userInput ≠ "")
    (hfresh : ∀ m ∈ p.chatBody, m.id ≠ some (msgId now₂)) :
    fireTimer (sendMessage p now₁ now₂) p.timers.length now₃ =
      { p with
        chatBody := p.chatBody ++ [userMessage (jsTrim p.userInput), botMessage]
        userInput := "" } := by
  rw [sendMessage_of_nonempty p now₁ now₂ h,
    fireTimer_of_get _ p.timers.length now₃ (msgId now₂) (by simp)]
  have he : (p.chatBody ++ [userMessage (jsTrim p.userInput), pendingMessage (msgId now₂)]).eraseP
      (fun m => decide (m.id = some (msgId now₂))) =
      p.chatBody ++ [userMessage (jsTrim p.userInput)] := by
    rw [List.eraseP_append_right _ (by simpa using hfresh)]
    simp [userMessage, pendingMessage]
  simp only [he]
  simp [List.eraseIdx_append_of_length_le]

theorem get?_at_length (ts : List String) (a : String) (rest : List String) :
    (ts ++ a :: rest).get? ts.length = some a := by
  induction ts with
  | nil => rfl
  | cons x xs ih => simpa using ih

theorem get?_after_length (ts : List String) (a b : String) (rest : List String) :
    (ts ++ a :: b :: rest).get? (ts.length + 1) = some b := by
  induction ts with
  | nil => rfl
  | cons x xs ih => simpa using ih

theorem eraseIdx_at_length (ts : List String) (a : String) (rest : List String) :
    (ts ++ a :: rest).eraseIdx ts.length = ts ++ rest := by
  induction ts with
  | nil => rfl
  | cons x xs ih => simpa using ih

theorem eraseIdx_after_length (ts : List String) (a b : String) (rest : List String) :
    (ts ++ a :: b :: rest).eraseIdx (ts.length + 1) = ts ++ a :: rest := by
  induction ts with
  | nil => rfl
  | cons x xs ih => simpa using ih

theorem two_sends_eq (p : Page) (a b : String) (n₁ n₂ n₃ n₄ : Int)
    (ha : jsTrim a ≠ "") (hb : jsTrim b ≠ "") :
    sendMessage (typeInput (sendMessage (typeInput p a) n₁ n₂) b) n₃ n₄ =
      { p with
        chatBody := p.chatBody ++
          [userMessage (jsTrim a), pendingMessage (msgId n₂),
           userMessage (jsTrim b), pendingMessage (msgId n₄)]
        userInput := ""
        timers := p.timers ++ [msgId n₂, msgId n₄] } := by
  rw [sendMessage_of_nonempty (typeInput p a) n₁ n₂ ha]
  rw [sendMessage_of_nonempty _ n₃ n₄ hb]
  simp [typeInput]

/-- The placeholder-removal of a callback skips a prefix that holds no such id. -/
theorem eraseP_skip (l tail : List Message) (id : String)
    (h : ∀ m ∈ l, m.id ≠ some id) :
    (l ++ tail).eraseP (fun m => decide (m.id = some id)) =
      l ++ tail.eraseP (fun m => decide (m.id = some id)) :=
  List.eraseP_append_right _ (by simpa using h)

/-- Two sends whose ids no element of the chat carries, followed by their callbacks in
scheduling order.  The two ids may be equal. -/
theorem two_sends_in_order_of_fresh (p : Page) (a b : String)
    (n₁ n₂ n₃ n₄ n₅ n₆ : Int)
    (ha : jsTrim a ≠ "") (hb : jsTrim b ≠ "")
    (h1 : ∀ m ∈ p.chatBody, m.id ≠ some (msgId n₂))
    (h2 : ∀ m ∈ p.chatBody, m.id ≠ some (msgId n₄)) :
    (fireTimer (sendMessage (typeInput (sendMessage (typeInput p a) n₁ n₂) b) n₃ n₄)
        p.timers.length n₅).chatBody =
      p.chatBody ++ [userMessage (jsTrim a), userMessage (jsTrim b),
        pendingMessage (msgId n₄), botMessage] ∧
    (fireTimer (fireTimer
        (sendMessage (typeInput (sendMessage (typeInput p a) n₁ n₂) b) n₃ n₄)
        p.timers.length n₅) p.timers.length n₆).chatBody =
      p.chatBody ++ [userMessage (jsTrim a), userMessage (jsTrim b), botMessage, botMessage] ∧
    (fireTimer (fireTimer
        (sendMessage (typeInput (sendMessage (typeInput p a) n₁ n₂) b) n₃ n₄)
        p.timers.length n₅) p.timers.length n₆).timers = p.timers := by
  rw [two_sends_eq p a b n₁ n₂ n₃ n₄ ha hb]
  refine ⟨?_, ?_, ?_⟩
  · rw [fireTimer_of_get _ _ n₅ (msgId n₂) (get?_at_length _ _ _)]
    simp only [eraseP_skip _ _ _ h1]
    simp [userMessage, pendingMessage]
  · rw [fireTimer_of_get _ _ n₅ (msgId n₂) (get?_at_length _ _ _)]
    simp only [eraseIdx_at_length, eraseP_skip _ _ _ h1]
    rw [fireTimer_of_get _ _ n₆ (msgId n₄) (get?_at_length _ _ _)]
    simp only [List.append_assoc, eraseP_skip _ _ _ h2]
    simp [userMessage, pendingMessage, botMessage]
  · rw [fireTimer_of_get _ _ n₅ (msgId n₂) (get?_at_length _ _ _)]
    simp only [eraseIdx_at_length]
    rw [fireTimer_of_get _ _ n₆ (msgId n₄) (get?_at_length _ _ _)]
    simp only [eraseIdx_at_length, List.append_nil]

/-- Two sends with distinct ids that no element of the chat carries, followed by their
callbacks in the reverse of scheduling order. -/
theorem two_sends_reversed_of_fresh (p : Page) (a b : String)
    (n₁ n₂ n₃ n₄ n₅ n₆ : Int)
    (ha : jsTrim a ≠ "") (hb : jsTrim b ≠ "") (hid : msgId n₂ ≠ msgId n₄)
    (h1 : ∀ m ∈ p.chatBody, m.id ≠ some (msgId n₂))
    (h2 : ∀ m ∈ p.chatBody, m.id ≠ some (msgId n₄)) :
    (fireTimer (sendMessage (typeInput (sendMessage (typeInput p a) n₁ n₂) b) n₃ n₄)
        (p.timers.length + 1) n₅).chatBody =
      p.chatBody ++ [userMessage (jsTrim a), pendingMessage (msgId n₂),
        userMessage (jsTrim b), botMessage] ∧
    (fireTimer (fireTimer
        (sendMessage (typeInput (sendMessage (typeInput p a) n₁ n₂) b) n₃ n₄)
        (p.timers.length + 1) n₅) p.timers.length n₆).chatBody =
      p.chatBody ++ [userMessage (jsTrim a), userMessage (jsTrim b), botMessage, botMessage] := by
  rw [two_sends_eq p a b n₁ n₂ n₃ n₄ ha hb]
  refine ⟨?_, ?_⟩
  · rw [fireTimer_of_get _ _ n₅ (msgId n₄) (get?_after_length _ _ _ _)]
    simp only [eraseP_skip _ _ _ h2]
    simp [userMessage, pendingMessage, hid]
  · rw [fireTimer_of_get _ _ n₅ (msgId n₄) (get?_after_length _ _ _ _)]
    simp only [eraseIdx_after_length, eraseP_skip _ _ _ h2]
    rw [fireTimer_of_get _ _ n₆ (msgId n₂) (get?_at_length _ _ _)]
    simp only [List.append_assoc, eraseP_skip _ _ _ h1]
    simp [userMessage, pendingMessage, botMessage, hid]

/-! ## Scheduling order -/

theorem placeholderIds_append (l₁ l₂ : List Message) :
    placeholderIds (l₁ ++ l₂) = placeholderIds l₁ ++ placeholderIds l₂ := by
  unfold placeholderIds
  exact List.filterMap_append _ _ _

/-- When the oldest placeholder of the chat carries the id `t`, the first element with
the id `t` is that placeholder: removing it leaves the ids of the younger ones, and it
is the first element of the chat that carries an id at all. -/
theorem placeholderIds_eraseP (l : List Message) (t : String) (ts : List String)
    (h : placeholderIds l = t :: ts) :
    placeholderIds (l.eraseP (fun m => decide (m.id = some t))) = ts ∧
    l.eraseP (fun m => decide (m.id = some t)) = l.eraseP (fun m => m.id.isSome) := by
  induction l with
  | nil => simp [placeholderIds] at h
  | cons m rest ih =>
    cases hm : m.id with
    | none =>
      have h' : placeholderIds rest = t :: ts := by
        simpa [placeholderIds, List.filterMap_cons, hm] using h
      have ih' := ih h'
      rw [List.eraseP_cons_of_neg (by simp [hm]), List.eraseP_cons_of_neg (by simp [hm])]
      refine ⟨?_, by rw [ih'.2]⟩
      simpa [placeholderIds, List.filterMap_cons, hm] using ih'.1
    | some x =>
      have h' : x = t ∧ placeholderIds rest = ts := by
        simpa [placeholderIds, List.filterMap_cons, hm] using h
      rw [List.eraseP_cons_of_pos (by simp [hm, h'.1]), List.eraseP_cons_of_pos (by simp [hm])]
      exact ⟨h'.2, rfl⟩

theorem queue_sendMessage (p : Page) (now₁ now₂ : Int)
    (h : placeholderIds p.chatBody = p.timers) :
    placeholderIds (sendMessage p now₁ now₂).chatBody = (sendMessage p now₁ now₂).timers := by
  by_cases he : jsTrim p.userInput = ""
  · rw [sendMessage_of_empty p now₁ now₂ he]; exact h
  · rw [sendMessage_of_nonempty p now₁ now₂ he]
    simp only [placeholderIds_append, h]
    simp [placeholderIds, userMessage, pendingMessage]

/-- In scheduling order the callback that fires removes the oldest placeholder of the
chat, the one its own send appended, whatever ids collide. -/
theorem fireHead_removes_oldest (p : Page) (now : Int) (t : String) (ts : List String)
    (h : placeholderIds p.chatBody = p.timers) (ht : p.timers = t :: ts) :
    fireTimer p 0 now =
      { p with
        chatBody := p.chatBody.eraseP (fun m => m.id.isSome) ++ [botMessage]
        timers := ts } := by
  rw [fireTimer_of_get p 0 now t (by rw [ht]; rfl)]
  rw [(placeholderIds_eraseP p.chatBody t ts (by rw [h, ht])).2, ht]
  rfl

theorem queue_fireHead (p : Page) (now : Int)
    (h : placeholderIds p.chatBody = p.timers) :
    placeholderIds (fireTimer p 0 now).chatBody = (fireTimer p 0 now).timers := by
  cases ht : p.timers with
  | nil => rw [fireTimer_of_none p 0 now (by rw [ht]; rfl)]; rw [h, ht]
  | cons t ts =>
    rw [fireTimer_of_get p 0 now t (by rw [ht]; rfl)]
    have hq := (placeholderIds_eraseP p.chatBody t ts (by rw [h, ht])).1
    simp only [placeholderIds_append, hq, ht]
    simp [placeholderIds, botMessage]

/-- The ids of the placeholders, in chat order, are the ids of the scheduled callbacks,
in scheduling order, after every run in which callbacks fire in scheduling order. -/
theorem queue_run (es : List Event) (p : Page)
    (h : placeholderIds p.chatBody = p.timers) (ho : schedulingOrder es = true) :
    placeholderIds (run p es).chatBody = (run p es).timers := by
  induction es generalizing p with
  | nil => exact h
  | cons e rest ih =>
    have hr : schedulingOrder rest = true := by
      simp [schedulingOrder] at ho ⊢
      exact ho.2
    apply ih (step p e) _ hr
    cases e with
    | send v now₁ now₂ => exact queue_sendMessage (typeInput p v) now₁ now₂ h
    | fire i now =>
      have hi : i = 0 := by
        simp [schedulingOrder] at ho
        exact ho.1
      subst hi
      exact queue_fireHead p now h

/-! ## The properties of the specification -/

/-- C1: for every page (message list `L = p.chatBody`) and every input whose trimmed
form `t` is non-empty, `sendMessage` leaves the list equal to `L` followed by the user
message with text `t` and no id, then the bot placeholder `Yanıt hazırlanıyor...`
carrying the pending id; it clears the input field and schedules exactly one callback,
which holds that id.  Nothing else on the page changes. -/
theorem sendMessage_appends_user_then_pending (p : Page) (now₁ now₂ : Int)
    (h : jsTrim p.userInput ≠ "") :
    sendMessage p now₁ now₂ =
      { p with
        chatBody := p.chatBody ++
          [userMessage (jsTrim p.userInput), pendingMessage (msgId now₂)]
        userInput := ""
        timers := p.timers ++ [msgId now₂] } :=
  sendMessage_of_nonempty p now₁ now₂ h

/-- C1 at `  Hello ` typed into the loaded page. -/
theorem sendMessage_appends_user_then_pending_witness :
    jsTrim helloPage.userInput ≠ "" ∧
    (sendMessage helloPage 5 6).chatBody = [userMessage "Hello", pendingMessage "msg-6"] ∧
    (sendMessage helloPage 5 6).userInput = "" ∧
    (sendMessage helloPage 5 6).timers = ["msg-6"] := by
  rw [sendMessage_appends_user_then_pending helloPage 5 6 (by decide)]
  decide

/-- C2: for every input made of whitespace only (the empty string included) and every
page, `sendMessage` changes nothing: the message list, the input field and the
scheduled callbacks are what they were. -/
theorem sendMessage_whitespace_noop (p : Page) (now₁ now₂ : Int)
    (h : ∀ c ∈ p.userInput.data, isJSWhiteSpace c = true) :
    sendMessage p now₁ now₂ = p :=
  sendMessage_of_empty p now₁ now₂ (jsTrim_of_all_white p.userInput h)

/-- C2 at an input of blanks, a tab and a line feed. -/
theorem sendMessage_whitespace_noop_witness :
    (∀ c ∈ blankPage.userInput.data, isJSWhiteSpace c = true) ∧
    sendMessage blankPage 5 6 = blankPage :=
  ⟨by decide, sendMessage_whitespace_noop blankPage 5 6 (by decide)⟩

/-- C3: for every page reached from a balanced page (a freshly loaded one) by any run
of sends and firings, and every input with a non-empty trimmed form `t`: when no
earlier callback is outstanding, so that the callback of this send is the next one the
runtime runs (nothing else in between), `sendMessage` turns the list `L` into
`L ++ [User t, placeholder]` with exactly that one callback scheduled, and after the
callback has fired the page is the one before the send with the list
`L ++ [User t, Bot mockResponse]` and an empty input field; no element with an id, so
no placeholder, is left. -/
theorem send_then_completion (p₀ : Page) (es : List Event) (v : String)
    (now₁ now₂ now₃ : Int)
    (h₀ : ∀ id, pendingCount p₀.chatBody id = p₀.timers.count id)
    (hq : (run p₀ es).timers = [])
    (hv : jsTrim v ≠ "") :
    (run p₀ (es ++ [Event.send v now₁ now₂])).chatBody =
      (run p₀ es).chatBody ++ [userMessage (jsTrim v), pendingMessage (msgId now₂)] ∧
    (run p₀ (es ++ [Event.send v now₁ now₂])).timers = [msgId now₂] ∧
    run p₀ (es ++ [Event.send v now₁ now₂, Event.fire 0 now₃]) =
      { run p₀ es with
        chatBody := (run p₀ es).chatBody ++ [userMessage (jsTrim v), botMessage]
        userInput := "" } ∧
    (∀ id, pendingCount
      (run p₀ (es ++ [Event.send v now₁ now₂, Event.fire 0 now₃])).chatBody id = 0) := by
  have hbal := balanced_run es p₀ h₀
  have hfresh := fresh_of_quiet (run p₀ es) hbal hq (msgId now₂)
  have hk : (run p₀ es).timers.length = 0 := by rw [hq]; rfl
  have hs := sendMessage_of_nonempty (typeInput (run p₀ es) v) now₁ now₂ hv
  have hf := send_then_fire_of_fresh (typeInput (run p₀ es) v) now₁ now₂ now₃ hv hfresh
  have e1 : run p₀ (es ++ [Event.send v now₁ now₂]) =
      sendMessage (typeInput (run p₀ es) v) now₁ now₂ := by
    rw [run_append]; rfl
  have e2 : run p₀ (es ++ [Event.send v now₁ now₂, Event.fire 0 now₃]) =
      fireTimer (sendMessage (typeInput (run p₀ es) v) now₁ now₂) 0 now₃ := by
    rw [run_append]; rfl
  have hf' : fireTimer (sendMessage (typeInput (run p₀ es) v) now₁ now₂) 0 now₃ =
      { run p₀ es with
        chatBody := (run p₀ es).chatBody ++ [userMessage (jsTrim v), botMessage]
        userInput := "" } := by
    have hk' : (typeInput (run p₀ es) v).timers.length = 0 := hk
    rw [hk'] at hf
    exact hf
  refine ⟨?_, ?_, ?_, ?_⟩
  · rw [e1, hs]; rfl
  · rw [e1, hs]
    show (typeInput (run p₀ es) v).timers ++ [msgId now₂] = [msgId now₂]
    have ht : (typeInput (run p₀ es) v).timers = [] := hq
    rw [ht]; rfl
  · rw [e2, hf']
  · intro id
    rw [e2, hf']
    simp only [pendingCount_append, hbal id, hq]
    simp [pendingCount, userMessage, botMessage]

/-- C3 after two same-tick sends have been resolved on the loaded page, with `  Hello `
sent next. -/
theorem send_then_completion_witness :
    (run loadedPage sameTickDrained).timers = [] ∧
    (run loadedPage
      (sameTickDrained ++ [Event.send "  Hello " 6 7, Event.fire 0 11])).chatBody =
      (run loadedPage sameTickDrained).chatBody ++ [userMessage "Hello", botMessage] := by
  refine ⟨by decide, ?_⟩
  rw [(send_then_completion loadedPage sameTickDrained "  Hello " 6 7 11
    (fun _ => rfl) (by decide) (by decide)).2.2.1]
  decide

/-- C4 at two sends of the same clock tick: after the callback of the first send has
fired, the chat is `[User a, User b, placeholder msg-5, Bot mockResponse]`, so one
placeholder with the originating id `msg-5` is still in the list. -/
theorem same_tick_placeholder_survives :
    (run loadedPage sameTickEvents).chatBody =
      [userMessage "a", userMessage "b", pendingMessage (msgId 5), botMessage] ∧
    pendingCount (run loadedPage sameTickEvents).chatBody (msgId 5) = 1 ∧
    (run loadedPage sameTickEvents).timers = [msgId 5] := by
  decide

/-- C5, as stated, fails: on a lookup miss the callback still appends the canned
response, so the list after the callback is not the list before it. -/
theorem lookup_miss_counterexample :
    getElementById loadedPage.chatBody "msg-5" = none ∧
    (timeoutCallback loadedPage "msg-5" 9).chatBody ≠ loadedPage.chatBody := by
  decide

/-- C5, amended: when the callback fires and no element with the pending id is found,
nothing is removed, and the canned bot response is still appended: the page after the
callback is the page before it with `Bot mockResponse` added at the end of the list. -/
theorem lookup_miss_appends_response (p : Page) (loadingId : String) (now : Int)
    (h : getElementById p.chatBody loadingId = none) :
    timeoutCallback p loadingId now = { p with chatBody := p.chatBody ++ [botMessage] } := by
  unfold timeoutCallback
  rw [h]
  rfl

/-- C5 amended, at the loaded page and the id `msg-5`. -/
theorem lookup_miss_appends_response_witness :
    getElementById loadedPage.chatBody "msg-5" = none ∧
    timeoutCallback loadedPage "msg-5" 9 =
      { loadedPage with chatBody := loadedPage.chatBody ++ [botMessage] } :=
  ⟨by decide, lookup_miss_appends_response loadedPage "msg-5" 9 (by decide)⟩

/-- C6, as stated, fails: from a light page whose icon shows `fa-sun`, two clicks end
with an icon that has `fa-moon`, which the original icon did not have. -/
theorem themeToggle_two_clicks_counterexample :
    classContains sunInLightPage.bodyClasses "dark-mode" = false ∧
    ¬ (∀ t, t ∈ (themeToggleClick (themeToggleClick sunInLightPage)).iconClasses ↔
        t ∈ sunInLightPage.iconClasses) := by
  refine ⟨by decide, fun h => ?_⟩
  have h1 := (h "fa-moon").1 (by decide)
  revert h1
  decide

/-- C6, amended: from every page in which dark-mode is off, one click turns dark-mode
on with the icon having `fa-sun` and not `fa-moon`, and a second click turns it off
with the icon having `fa-moon` and not `fa-sun`; from every page, two clicks return the
class set of the body (so the display mode) to the original and leave the rest of the
page untouched, and they return the class set of the icon to the original whenever the
icon started with the glyph of the mode (`fa-sun` exactly when dark, `fa-moon` exactly
when light). -/
theorem themeToggle_two_clicks (p : Page) :
    (classContains p.bodyClasses "dark-mode" = false →
      classContains (themeToggleClick p).bodyClasses "dark-mode" = true ∧
      classContains (themeToggleClick p).iconClasses "fa-sun" = true ∧
      classContains (themeToggleClick p).iconClasses "fa-moon" = false ∧
      classContains (themeToggleClick (themeToggleClick p)).bodyClasses "dark-mode" = false ∧
      classContains (themeToggleClick (themeToggleClick p)).iconClasses "fa-moon" = true ∧
      classContains (themeToggleClick (themeToggleClick p)).iconClasses "fa-sun" = false) ∧
    (∀ t, t ∈ (themeToggleClick (themeToggleClick p)).bodyClasses ↔ t ∈ p.bodyClasses) ∧
    (classContains p.iconClasses "fa-sun" = classContains p.bodyClasses "dark-mode" ∧
      classContains p.iconClasses "fa-moon" = !classContains p.bodyClasses "dark-mode" →
      ∀ t, t ∈ (themeToggleClick (themeToggleClick p)).iconClasses ↔ t ∈ p.iconClasses) ∧
    (themeToggleClick (themeToggleClick p)).widgetClasses = p.widgetClasses ∧
    (themeToggleClick (themeToggleClick p)).toggleIconClasses = p.toggleIconClasses ∧
    (themeToggleClick (themeToggleClick p)).userInput = p.userInput ∧
    (themeToggleClick (themeToggleClick p)).chatBody = p.chatBody ∧
    (themeToggleClick (themeToggleClick p)).timers = p.timers := by
  have r1 := themeToggleClick_rest p
  have r2 := themeToggleClick_rest (themeToggleClick p)
  refine ⟨fun hl => ?_, fun t => ?_, fun hc t => mem_icon_two_clicks p t hc.1 hc.2,
    r2.1.trans r1.1, r2.2.1.trans r1.2.1, r2.2.2.1.trans r1.2.2.1,
    r2.2.2.2.1.trans r1.2.2.2.1, r2.2.2.2.2.trans r1.2.2.2.2⟩
  · have f1 := themeToggleClick_flag p
    have g1 := themeToggleClick_glyph p
    have f2 := themeToggleClick_flag (themeToggleClick p)
    have g2 := themeToggleClick_glyph (themeToggleClick p)
    rw [hl] at f1
    rw [f1] at f2 g1
    rw [f2] at g2
    exact ⟨f1, g1.1, g1.2, f2, g2.2, g2.1⟩
  · rw [themeToggleClick_body, themeToggleClick_body]
    exact mem_classToggle_twice _ _ _

/-- C6 amended, at the loaded page (light, moon glyph). -/
theorem themeToggle_two_clicks_witness :
    classContains (themeToggleClick loadedPage).bodyClasses "dark-mode" = true ∧
    (∀ t, t ∈ (themeToggleClick (themeToggleClick loadedPage)).iconClasses ↔
      t ∈ loadedPage.iconClasses) :=
  ⟨((themeToggle_two_clicks loadedPage).1 (by decide)).1,
    (themeToggle_two_clicks loadedPage).2.2.1 (by decide)⟩

/-- C7: for every page, `toggleChat` called twice returns the presence of the class
`closed` to its original value, each single call flips it, and after each single call
the chevron has `fa-chevron-up` exactly when the widget is closed and
`fa-chevron-down` exactly when it is open, never both. -/
theorem toggleChat_twice_and_chevron (p : Page) :
    classContains (toggleChat (toggleChat p)).widgetClasses "closed" =
      classContains p.widgetClasses "closed" ∧
    classContains (toggleChat p).widgetClasses "closed" =
      !classContains p.widgetClasses "closed" ∧
    classContains (toggleChat p).toggleIconClasses "fa-chevron-up" =
      classContains (toggleChat p).widgetClasses "closed" ∧
    classContains (toggleChat p).toggleIconClasses "fa-chevron-down" =
      !classContains (toggleChat p).widgetClasses "closed" := by
  refine ⟨?_, toggleChat_flag p, (toggleChat_glyph p).1, (toggleChat_glyph p).2⟩
  rw [toggleChat_flag, toggleChat_flag, Bool.not_not]

/-- C8: for every page, `openChat` leaves an open widget's page unchanged, does on a
closed widget exactly what `toggleChat` does, always ends with the widget open, and is
idempotent. -/
theorem openChat_opens (p : Page) :
    (classContains p.widgetClasses "closed" = false → openChat p = p) ∧
    (classContains p.widgetClasses "closed" = true → openChat p = toggleChat p) ∧
    classContains (openChat p).widgetClasses "closed" = false ∧
    openChat (openChat p) = openChat p := by
  have hopen : classContains (openChat p).widgetClasses "closed" = false := by
    unfold openChat
    cases h : classContains p.widgetClasses "closed"
    · simpa using h
    · simp only [if_true]
      rw [toggleChat_flag, h]
      rfl
  refine ⟨fun h => ?_, fun h => ?_, hopen, ?_⟩
  · unfold openChat; rw [h]; rfl
  · unfold openChat; rw [h]; rfl
  · show (if classContains (openChat p).widgetClasses "closed" = true
      then toggleChat (openChat p) else openChat p) = openChat p
    rw [hopen]; rfl

/-- C8 at the open page and at the loaded (closed) page. -/
theorem openChat_opens_witness :
    openChat openPage = openPage ∧ openChat loadedPage = toggleChat loadedPage :=
  ⟨(openChat_opens openPage).1 (by decide), (openChat_opens loadedPage).2.1 (by decide)⟩

/-- C9: for every page reached from a balanced page (a freshly loaded one) by any run
of sends and firings with no earlier callback outstanding, two sends with non-empty
trimmed inputs issued before either callback fires leave both placeholders in the list
(`L ++ [User a, pending1, User b, pending2]`), with their two callbacks scheduled.  In
scheduling order the first callback removes only `pending1` and the second only
`pending2`, so after both the list is
`L ++ [User a, User b, Bot mockResponse, Bot mockResponse]` and nothing is scheduled;
this needs no condition on the ids.  When the two ids are distinct the two placeholders
resolve independently of the order: firing the second callback first removes only
`pending2`, and the same final list results. -/
theorem two_sends_resolve_independently (p₀ : Page) (es : List Event) (a b : String)
    (n₁ n₂ n₃ n₄ n₅ n₆ : Int)
    (h₀ : ∀ id, pendingCount p₀.chatBody id = p₀.timers.count id)
    (hq : (run p₀ es).timers = [])
    (ha : jsTrim a ≠ "") (hb : jsTrim b ≠ "") :
    (run p₀ (es ++ [Event.send a n₁ n₂, Event.send b n₃ n₄])).chatBody =
      (run p₀ es).chatBody ++ [userMessage (jsTrim a), pendingMessage (msgId n₂),
        userMessage (jsTrim b), pendingMessage (msgId n₄)] ∧
    (run p₀ (es ++ [Event.send a n₁ n₂, Event.send b n₃ n₄])).timers =
      [msgId n₂, msgId n₄] ∧
    (run p₀ (es ++ [Event.send a n₁ n₂, Event.send b n₃ n₄, Event.fire 0 n₅])).chatBody =
      (run p₀ es).chatBody ++ [userMessage (jsTrim a), userMessage (jsTrim b),
        pendingMessage (msgId n₄), botMessage] ∧
    (run p₀ (es ++ [Event.send a n₁ n₂, Event.send b n₃ n₄, Event.fire 0 n₅,
        Event.fire 0 n₆])).chatBody =
      (run p₀ es).chatBody ++
        [userMessage (jsTrim a), userMessage (jsTrim b), botMessage, botMessage] ∧
    (run p₀ (es ++ [Event.send a n₁ n₂, Event.send b n₃ n₄, Event.fire 0 n₅,
        Event.fire 0 n₆])).timers = [] ∧
    (msgId n₂ ≠ msgId n₄ →
      (run p₀ (es ++ [Event.send a n₁ n₂, Event.send b n₃ n₄, Event.fire 1 n₅])).chatBody =
        (run p₀ es).chatBody ++ [userMessage (jsTrim a), pendingMessage (msgId n₂),
          userMessage (jsTrim b), botMessage] ∧
      (run p₀ (es ++ [Event.send a n₁ n₂, Event.send b n₃ n₄, Event.fire 1 n₅,
          Event.fire 0 n₆])).chatBody =
        (run p₀ es).chatBody ++
          [userMessage (jsTrim a), userMessage (jsTrim b), botMessage, botMessage]) := by
  have hbal := balanced_run es p₀ h₀
  have h1 := fresh_of_quiet (run p₀ es) hbal hq (msgId n₂)
  have h2 := fresh_of_quiet (run p₀ es) hbal hq (msgId n₄)
  have hk : (run p₀ es).timers.length = 0 := by rw [hq]; rfl
  have hs := two_sends_eq (run p₀ es) a b n₁ n₂ n₃ n₄ ha hb
  have hord := two_sends_in_order_of_fresh (run p₀ es) a b n₁ n₂ n₃ n₄ n₅ n₆ ha hb h1 h2
  rw [hk] at hord
  refine ⟨?_, ?_, ?_, ?_, ?_, fun hid => ?_⟩
  · rw [run_append]
    show (sendMessage (typeInput (sendMessage (typeInput (run p₀ es) a) n₁ n₂) b) n₃ n₄).chatBody
      = _
    rw [hs]
  · rw [run_append]
    show (sendMessage (typeInput (sendMessage (typeInput (run p₀ es) a) n₁ n₂) b) n₃ n₄).timers
      = _
    rw [hs]
    show (run p₀ es).timers ++ [msgId n₂, msgId n₄] = [msgId n₂, msgId n₄]
    rw [hq]; rfl
  · rw [run_append]; exact hord.1
  · rw [run_append]; exact hord.2.1
  · rw [run_append]
    exact hord.2.2.trans hq
  · have hrev := two_sends_reversed_of_fresh (run p₀ es) a b n₁ n₂ n₃ n₄ n₅ n₆
      ha hb hid h1 h2
    rw [hk] at hrev
    constructor
    · rw [run_append]; exact hrev.1
    · rw [run_append]; exact hrev.2

/-- C9 after two same-tick sends have been resolved on the loaded page, with `a` and
`b` sent next at the clock values 6 and 7. -/
theorem two_sends_resolve_independently_witness :
    (run loadedPage sameTickDrained).timers = [] ∧
    (run loadedPage (sameTickDrained ++
      [Event.send "a" 6 6, Event.send "b" 7 7, Event.fire 0 11, Event.fire 0 12])).chatBody =
      (run loadedPage sameTickDrained).chatBody ++
        [userMessage (jsTrim "a"), userMessage (jsTrim "b"), botMessage, botMessage] ∧
    (run loadedPage (sameTickDrained ++
      [Event.send "a" 6 6, Event.send "b" 7 7, Event.fire 1 11, Event.fire 0 12])).chatBody =
      (run loadedPage sameTickDrained).chatBody ++
        [userMessage (jsTrim "a"), userMessage (jsTrim "b"), botMessage, botMessage] :=
  ⟨by decide,
    (two_sends_resolve_independently loadedPage sameTickDrained "a" "b" 6 6 7 7 11 12
      (fun _ => rfl) (by decide) (by decide) (by decide)).2.2.2.1,
    ((two_sends_resolve_independently loadedPage sameTickDrained "a" "b" 6 6 7 7 11 12
      (fun _ => rfl) (by decide) (by decide) (by decide)).2.2.2.2.2 (by decide)).2⟩

/-- C10: over runs made of `sendMessage` calls and firings of scheduled callbacks,
started from a page on which every id has as many placeholders as scheduled callbacks
(a freshly loaded page, with nothing scheduled and no id in the chat), the same holds
after every run: for every id the number of placeholders carrying it equals the number
of not-yet-fired callbacks holding it.  Every callback, fired or scheduled, stands for
one accepted send; so once every callback has fired no element with an id is left in
the chat and the chat has gained exactly one `mockResponse` message per accepted send
(and per callback scheduled at the start), whatever ids the sends received. -/
theorem placeholders_balance_callbacks (p : Page) (es : List Event)
    (h0 : ∀ id, pendingCount p.chatBody id = p.timers.count id) :
    (∀ id, pendingCount (run p es).chatBody id = (run p es).timers.count id) ∧
    (run p es).chatBody.count botMessage + (run p es).timers.length =
      p.chatBody.count botMessage + p.timers.length + acceptedSends es ∧
    ((run p es).timers = [] →
      (∀ m ∈ (run p es).chatBody, m.id = none) ∧
      (run p es).chatBody.count botMessage =
        p.chatBody.count botMessage + p.timers.length + acceptedSends es) := by
  have hb := balanced_run es p h0
  have hr := responses_run es p
  refine ⟨hb, hr, fun ht => ⟨?_, ?_⟩⟩
  · apply no_id_of_pendingCount_zero
    intro id
    rw [hb id, ht]
    rfl
  · rw [ht] at hr
    simpa using hr

/-- C10 at the loaded page and two sends of the same clock tick whose callbacks both
fire: no id is left and the chat holds two `mockResponse` messages. -/
theorem placeholders_balance_callbacks_witness :
    (∀ id, pendingCount loadedPage.chatBody id = loadedPage.timers.count id) ∧
    (run loadedPage sameTickDrained).timers = [] ∧
    (∀ m ∈ (run loadedPage sameTickDrained).chatBody, m.id = none) ∧
    (run loadedPage sameTickDrained).chatBody.count botMessage = 0 + 0 + 2 :=
  ⟨fun _ => rfl, by decide,
    ((placeholders_balance_callbacks loadedPage sameTickDrained (fun _ => rfl)).2.2
      (by decide)).1,
    ((placeholders_balance_callbacks loadedPage sameTickDrained (fun _ => rfl)).2.2
      (by decide)).2⟩

end Portfolio
